import Mathlib

/-!
Verification of the 3D rotation engine of the `propagator` repository
(`src/utils/rotation.py`).

The Python code works on numpy float arrays; here every float is modelled as
a real number, numpy helper functions (`sign`, `copysign`, `arctan2`) are
modelled by their documented exact-arithmetic semantics, and Python control
flow that either raises an exception or returns a value is modelled by the
`PyResult` type below.  Functions of the missing modules `linalg.py` and
`log.py` (only `src/utils/rotation.py` is in the sources) are modelled from
the spec and marked as such in their doc comments.
-/

noncomputable section

open Real

/-- Outcome of calling a Python function: either an exception was raised
(with a message) or a value was returned. -/
inductive PyResult (α : Type) where
  | raised (msg : String)
  | returned (val : α)
  deriving DecidableEq

/-- `true` iff the call raised an exception. -/
def PyResult.isRaised {α : Type} : PyResult α → Bool
  | .raised _ => true
  | .returned _ => false

/-- A quaternion `w + ix + jy + kz`, the `[w,x,y,z]` array of the source. -/
structure Quat where
  w : ℝ
  x : ℝ
  y : ℝ
  z : ℝ

/-- Negation `-q` of a quaternion array (numpy elementwise negation). -/
def qneg (q : Quat) : Quat := ⟨-q.w, -q.x, -q.y, -q.z⟩

/-- A 3D vector, the length-3 array of the source. -/
structure Vec3 where
  x : ℝ
  y : ℝ
  z : ℝ

/-- Indexing `v[i]` for a length-3 array. -/
def Vec3.get (v : Vec3) : Fin 3 → ℝ
  | 0 => v.x
  | 1 => v.y
  | 2 => v.z

/-- The array that is zero except for a `1.` at index `i`
(`v3 = numpy.array([0.,0.,0.]); v3[i] = 1.` in the source). -/
def basisVec : Fin 3 → Vec3
  | 0 => ⟨1, 0, 0⟩
  | 1 => ⟨0, 1, 0⟩
  | 2 => ⟨0, 0, 1⟩

/-- A 3x3 matrix with explicit entries, the 3x3 numpy array of the source. -/
structure Mat3 where
  m00 : ℝ
  m01 : ℝ
  m02 : ℝ
  m10 : ℝ
  m11 : ℝ
  m12 : ℝ
  m20 : ℝ
  m21 : ℝ
  m22 : ℝ

/-- Matrix product `A.dot(B)`. -/
def Mat3.mul (A B : Mat3) : Mat3 :=
  ⟨A.m00*B.m00 + A.m01*B.m10 + A.m02*B.m20,
   A.m00*B.m01 + A.m01*B.m11 + A.m02*B.m21,
   A.m00*B.m02 + A.m01*B.m12 + A.m02*B.m22,
   A.m10*B.m00 + A.m11*B.m10 + A.m12*B.m20,
   A.m10*B.m01 + A.m11*B.m11 + A.m12*B.m21,
   A.m10*B.m02 + A.m11*B.m12 + A.m12*B.m22,
   A.m20*B.m00 + A.m21*B.m10 + A.m22*B.m20,
   A.m20*B.m01 + A.m21*B.m11 + A.m22*B.m21,
   A.m20*B.m02 + A.m21*B.m12 + A.m22*B.m22⟩

/-- Matrix-vector product `A.dot(v)`. -/
def Mat3.mulVec (A : Mat3) (v : Vec3) : Vec3 :=
  ⟨A.m00*v.x + A.m01*v.y + A.m02*v.z,
   A.m10*v.x + A.m11*v.y + A.m12*v.z,
   A.m20*v.x + A.m21*v.y + A.m22*v.z⟩

/-- `numpy.identity(3)`. -/
def Mat3.identity : Mat3 := ⟨1, 0, 0, 0, 1, 0, 0, 0, 1⟩

/-- `numpy.sign` in exact arithmetic: `1` for positive, `-1` for negative,
`0` for zero. -/
def npsign (a : ℝ) : ℝ := if 0 < a then 1 else if a < 0 then -1 else 0

/-- `numpy.copysign a b` in exact arithmetic: `|a|` carrying the sign of `b`
(`b = 0` counts as positive, as for the float `+0.0`). -/
def npcopysign (a b : ℝ) : ℝ := if b < 0 then -|a| else |a|

/-- `numpy.arctan2 y x` in exact arithmetic (the four-quadrant arctangent,
with numpy's conventions on the axes and at the origin). -/
def arctan2 (y x : ℝ) : ℝ :=
  if 0 < x then Real.arctan (y / x)
  else if x < 0 then
    (if 0 ≤ y then Real.arctan (y / x) + π else Real.arctan (y / x) - π)
  else
    (if 0 < y then π / 2 else if y < 0 then -(π / 2) else 0)

/-- Modelled from the spec (the module `src/utils/linalg.py` is not among
the sources): `linalg.length`, the Euclidean length of a length-4 array. -/
def length (q : Quat) : ℝ := Real.sqrt (q.w^2 + q.x^2 + q.y^2 + q.z^2)

/-- Modelled from the spec (the module `src/utils/linalg.py` is not among
the sources): `linalg.dotproduct`, the Euclidean dot product. -/
def dotproduct (a b : Vec3) : ℝ := a.x*b.x + a.y*b.y + a.z*b.z

/-- Modelled from the spec (the module `src/utils/linalg.py` is not among
the sources): `linalg.crossproduct`, the 3D cross product. -/
def crossproduct (a b : Vec3) : Vec3 :=
  ⟨a.y*b.z - a.z*b.y, a.z*b.x - a.x*b.z, a.x*b.y - a.y*b.x⟩

/-- `quat_mult q1 q2`: the Hamilton product of two quaternions. -/
def quat_mult (q1 q2 : Quat) : Quat :=
  ⟨q1.w*q2.w - q1.x*q2.x - q1.y*q2.y - q1.z*q2.z,
   q1.w*q2.x + q1.x*q2.w + q1.y*q2.z - q1.z*q2.y,
   q1.w*q2.y + q1.y*q2.w + q1.z*q2.x - q1.x*q2.z,
   q1.w*q2.z + q1.z*q2.w + q1.x*q2.y - q1.y*q2.x⟩

/-- `quat_conj q`: the conjugate quaternion `[w,-x,-y,-z]`. -/
def quat_conj (q : Quat) : Quat := ⟨q.w, -q.x, -q.y, -q.z⟩

/-- `quat_vec_mult q v`: rotate vector `v` by quaternion `q`, computed as
the vector part of `q * (0,v) * conj q`. -/
def quat_vec_mult (q : Quat) (v : Vec3) : Vec3 :=
  let r := quat_mult (quat_mult q ⟨0, v.x, v.y, v.z⟩) (quat_conj q)
  ⟨r.x, r.y, r.z⟩

/-- `rotate_quat v q`: rotated version of `v` by quaternion `q`. -/
def rotate_quat (v : Vec3) (q : Quat) : Vec3 := quat_vec_mult q v

/-- `rotmx_from_quat q`: rotation matrix built from a quaternion
(Shoemake's closed formula). -/
def rotmx_from_quat (q : Quat) : Mat3 :=
  ⟨1 - 2*(q.y^2 + q.z^2), 2*(q.x*q.y - q.w*q.z), 2*(q.x*q.z + q.w*q.y),
   2*(q.x*q.y + q.w*q.z), 1 - 2*(q.x^2 + q.z^2), 2*(q.y*q.z - q.w*q.x),
   2*(q.x*q.z - q.w*q.y), 2*(q.y*q.z + q.w*q.x), 1 - 2*(q.x^2 + q.y^2)⟩

/-- `quat_from_rotmx R`: quaternion extracted from a rotation matrix by the
trace-based formula with `max(0, _)` clamping and `copysign` sign fixing. -/
def quat_from_rotmx (R : Mat3) : Quat :=
  ⟨Real.sqrt (max 0 (1 + R.m00 + R.m11 + R.m22)) / 2,
   npcopysign (Real.sqrt (max 0 (1 + R.m00 - R.m11 - R.m22)) / 2) (R.m21 - R.m12),
   npcopysign (Real.sqrt (max 0 (1 - R.m00 + R.m11 - R.m22)) / 2) (R.m02 - R.m20),
   npcopysign (Real.sqrt (max 0 (1 - R.m00 - R.m11 + R.m22)) / 2) (R.m10 - R.m01)⟩

/-- `uniquify_quat q`: flip the sign of the whole quaternion so that the
first nonzero coordinate (in order `w,x,y,z`) is positive. -/
def uniquify_quat (q : Quat) : Quat :=
  if q.w < 0 then qneg q
  else if q.w = 0 then
    (if q.x < 0 then qneg q
     else if q.x = 0 then
       (if q.y < 0 then qneg q
        else if q.y = 0 then
          (if q.z < 0 then qneg q else q)
        else q)
     else q)
  else q

/-- `norm_quat q tolerance`: the source is meant to return a normalised
copy of `q`, but in the rescaling branch it reads the not-yet-assigned
local variable `q_norm` (`q_norm = q_norm/linalg.length(q_norm)`), so that
branch raises `UnboundLocalError`; inside tolerance it returns a copy.
`linalg.length` is modelled from the spec (module missing from sources). -/
def norm_quat (q : Quat) (tolerance : ℝ) : PyResult Quat :=
  if |length q - 1| > tolerance then .raised "UnboundLocalError"
  else .returned q

/-- Squared Euclidean distance of two quaternion arrays,
`((q0-q1)**2).sum()` of the source. -/
def quatDistSq (q0 q1 : Quat) : ℝ :=
  (q0.w - q1.w)^2 + (q0.x - q1.x)^2 + (q0.y - q1.y)^2 + (q0.z - q1.z)^2

/-- `Rotation.is_similar`, with the `Rotation` objects represented by their
internal rotation matrices: both are converted to uniquified quaternions and
compared by Euclidean distance in 4-space against the tolerance. -/
def is_similar (R0 R1 : Mat3) (tol : ℝ) : Prop :=
  Real.sqrt (quatDistSq (uniquify_quat (quat_from_rotmx R0))
    (uniquify_quat (quat_from_rotmx R1))) < tol

/-- Lexicographic "first nonzero coordinate is positive (or all zero)". -/
def leadNonneg (q : Quat) : Prop :=
  0 < q.w ∨ (q.w = 0 ∧ (0 < q.x ∨ (q.x = 0 ∧ (0 < q.y ∨ (q.y = 0 ∧ 0 ≤ q.z)))))

lemma uniquify_quat_eq_self_or_neg (q : Quat) :
    uniquify_quat q = q ∨ uniquify_quat q = qneg q := by
  unfold uniquify_quat
  split_ifs <;> simp

lemma uniquify_quat_of_leadNonneg (q : Quat) (h : leadNonneg q) :
    uniquify_quat q = q := by
  unfold uniquify_quat
  rcases h with h | ⟨h0, h⟩
  · rw [if_neg (by linarith), if_neg (by linarith)]
  · rw [if_neg (by linarith), if_pos h0]
    rcases h with h | ⟨h1, h⟩
    · rw [if_neg (by linarith), if_neg (by linarith)]
    · rw [if_neg (by linarith), if_pos h1]
      rcases h with h | ⟨h2, h⟩
      · rw [if_neg (by linarith), if_neg (by linarith)]
      · rw [if_neg (by linarith), if_pos h2, if_neg (by linarith)]

lemma leadNonneg_uniquify_quat (q : Quat) : leadNonneg (uniquify_quat q) := by
  unfold uniquify_quat leadNonneg qneg
  rcases lt_trichotomy q.w 0 with hw | hw | hw
  · rw [if_pos hw]; left; simpa using hw
  · rw [if_neg (by linarith), if_pos hw]
    rcases lt_trichotomy q.x 0 with hx | hx | hx
    · rw [if_pos hx]
      right
      refine ⟨by simpa using hw, ?_⟩
      left; simpa using hx
    · rw [if_neg (by linarith), if_pos hx]
      rcases lt_trichotomy q.y 0 with hy | hy | hy
      · rw [if_pos hy]
        right
        refine ⟨by simpa using hw, ?_⟩
        right
        refine ⟨by simpa using hx, ?_⟩
        left; simpa using hy
      · rw [if_neg (by linarith), if_pos hy]
        rcases lt_trichotomy q.z 0 with hz | hz | hz
        · rw [if_pos hz]
          right
          refine ⟨by simpa using hw, ?_⟩
          right
          refine ⟨by simpa using hx, ?_⟩
          right
          exact ⟨by simpa using hy, by simp; linarith⟩
        · rw [if_neg (by linarith)]
          right
          exact ⟨hw, Or.inr ⟨hx, Or.inr ⟨hy, by linarith⟩⟩⟩
        · rw [if_neg (by linarith)]
          right
          exact ⟨hw, Or.inr ⟨hx, Or.inr ⟨hy, by linarith⟩⟩⟩
      · rw [if_neg (by linarith), if_neg (by linarith)]
        right
        exact ⟨hw, Or.inr ⟨hx, Or.inl hy⟩⟩
    · rw [if_neg (by linarith), if_neg (by linarith)]
      right
      exact ⟨hw, Or.inl hx⟩
  · rw [if_neg (by linarith), if_neg (by linarith)]
    left; exact hw

/-- `v[::-1]`: the length-3 array with component order reversed. -/
def vec_reverse (v : Vec3) : Vec3 := ⟨v.z, v.y, v.x⟩

/-- `Rotation.rotate_vector`, with the `Rotation` represented by its
internal matrix.  The invalid-order branch calls `log_and_raise_error`,
modelled from the spec (module `src/utils/log.py` missing from the
sources) as raising an exception. -/
def rotate_vector (R : Mat3) (v : Vec3) (order : String) : PyResult Vec3 :=
  if order = "xyz" then .returned (R.mulVec v)
  else if order = "zyx" then .returned (R.mulVec (vec_reverse v))
  else .raised "invalid order"

/-- `Rotation.rotate_vectors` on a list of 3-vectors (the source flattens
the input array into consecutive groups of 3, which the list models). -/
def rotate_vectors (R : Mat3) (vectors : List Vec3) (order : String) :
    PyResult (List Vec3) :=
  if order = "xyz" then .returned (vectors.map (fun v => R.mulVec v))
  else if order = "zyx" then
    .returned (vectors.map (fun v => vec_reverse (R.mulVec (vec_reverse v))))
  else .raised "invalid order"

/-- The three random draws of `rand_quat` made explicit as arguments
`x0, x1, x2` (the `numpy.random.random(3)` call of the source). -/
def rand_quat (x0 x1 x2 : ℝ) : Quat :=
  ⟨Real.sin (2*π*x1) * Real.sqrt (1 - x0),
   Real.cos (2*π*x1) * Real.sqrt (1 - x0),
   Real.sin (2*π*x2) * Real.sqrt x0,
   Real.cos (2*π*x2) * Real.sqrt x0⟩

/-- Modelled from the spec: the component tuple the spec asserts for the
random quaternion, `[cos θ2 √x0, sin θ1 √(1−x0), cos θ1 √(1−x0), sin θ2 √x0]`
with `θ1 = 2π x1`, `θ2 = 2π x2`.  Stated only to compare with `rand_quat`. -/
def rand_quat_spec_tuple (x0 x1 x2 : ℝ) : Quat :=
  ⟨Real.cos (2*π*x2) * Real.sqrt x0,
   Real.sin (2*π*x1) * Real.sqrt (1 - x0),
   Real.cos (2*π*x1) * Real.sqrt (1 - x0),
   Real.sin (2*π*x2) * Real.sqrt x0⟩

lemma sqrt_eq_of_sq {a b : ℝ} (hb : 0 ≤ b) (h : a = b^2) : Real.sqrt a = b := by
  rw [h]
  exact Real.sqrt_sq hb

lemma npcopysign_of_not_neg {a b : ℝ} (h : ¬ b < 0) : npcopysign a b = |a| :=
  if_neg h

/-- C10: `uniquify_quat` returns `q` or `-q`, is idempotent, and maps the
all-zero quaternion to itself. -/
theorem uniquify_quat_sign_idempotent (q : Quat) :
    (uniquify_quat q = q ∨ uniquify_quat q = qneg q) ∧
    uniquify_quat (uniquify_quat q) = uniquify_quat q ∧
    uniquify_quat ⟨0, 0, 0, 0⟩ = ⟨0, 0, 0, 0⟩ := by
  refine ⟨uniquify_quat_eq_self_or_neg q,
    uniquify_quat_of_leadNonneg _ (leadNonneg_uniquify_quat q), ?_⟩
  exact uniquify_quat_of_leadNonneg _ (by right; norm_num [leadNonneg])

/-- C8: two `Rotation`s constructed from a quaternion `q` and from `-q`
are `is_similar` at the default tolerance `1e-5` (quaternion double cover). -/
theorem is_similar_double_cover (q : Quat) :
    is_similar (rotmx_from_quat q) (rotmx_from_quat (qneg q)) (1/100000) := by
  have h : rotmx_from_quat (qneg q) = rotmx_from_quat q := by
    unfold rotmx_from_quat qneg
    simp only [Mat3.mk.injEq]
    refine ⟨?_, ?_, ?_, ?_, ?_, ?_, ?_, ?_, ?_⟩ <;> ring
  unfold is_similar
  rw [h]
  have hd : quatDistSq (uniquify_quat (quat_from_rotmx (rotmx_from_quat q)))
      (uniquify_quat (quat_from_rotmx (rotmx_from_quat q))) = 0 := by
    unfold quatDistSq; ring
  rw [hd, Real.sqrt_zero]
  norm_num

/-- C4: at `q = [2,0,0,0]` (length deviation `1 > 1e-5`) the rescaling
branch of `norm_quat` raises `UnboundLocalError` instead of returning the
rescaled quaternion, because the source divides the unassigned local
`q_norm` by its own length; within tolerance an unmodified copy is
returned (so a second application changes nothing there). -/
theorem norm_quat_unbound_local_error :
    norm_quat ⟨2, 0, 0, 0⟩ (1/100000) = .raised "UnboundLocalError" ∧
    norm_quat ⟨1, 0, 0, 0⟩ (1/100000) = .returned ⟨1, 0, 0, 0⟩ := by
  have h2 : length ⟨2, 0, 0, 0⟩ = 2 := by
    unfold length
    exact sqrt_eq_of_sq (by norm_num) (by norm_num)
  have h1 : length ⟨1, 0, 0, 0⟩ = 1 := by
    unfold length
    exact sqrt_eq_of_sq (by norm_num) (by norm_num)
  constructor
  · unfold norm_quat
    rw [h2, if_pos (by norm_num)]
  · unfold norm_quat
    rw [h1, if_neg (by norm_num)]

/-- C5: with the identity as internal matrix and `v = (1,2,3)`,
`rotate_vector` with `order="zyx"` returns `M · reverse v = (3,2,1)` (the
final reversal is missing), while `rotate_vectors` on the same single
vector returns `reverse (M · reverse v) = (1,2,3)`; the two disagree. -/
theorem rotate_vector_zyx_no_final_reversal :
    rotate_vector Mat3.identity ⟨1, 2, 3⟩ "zyx" = .returned ⟨3, 2, 1⟩ ∧
    rotate_vectors Mat3.identity [⟨1, 2, 3⟩] "zyx" = .returned [⟨1, 2, 3⟩] ∧
    (⟨3, 2, 1⟩ : Vec3) ≠ ⟨1, 2, 3⟩ := by
  refine ⟨?_, ?_, ?_⟩
  · unfold rotate_vector
    rw [if_neg (by decide), if_pos rfl]
    unfold Mat3.mulVec vec_reverse Mat3.identity
    norm_num
  · unfold rotate_vectors
    rw [if_neg (by decide), if_pos rfl]
    unfold Mat3.mulVec vec_reverse Mat3.identity
    norm_num
  · intro h
    have := congrArg Vec3.x h
    norm_num at this

/-- C9 counterexample: at draws `x0 = x1 = x2 = 0` the source's
`rand_quat` returns `[0,1,0,0]` whereas the tuple asserted by the claim is
`[0,0,1,0]`; the two differ in the second component. -/
theorem rand_quat_component_order_counterexample :
    rand_quat 0 0 0 = ⟨0, 1, 0, 0⟩ ∧
    rand_quat_spec_tuple 0 0 0 = ⟨0, 0, 1, 0⟩ ∧
    rand_quat 0 0 0 ≠ rand_quat_spec_tuple 0 0 0 := by
  have ha : rand_quat 0 0 0 = ⟨0, 1, 0, 0⟩ := by
    unfold rand_quat
    norm_num
  have hb : rand_quat_spec_tuple 0 0 0 = ⟨0, 0, 1, 0⟩ := by
    unfold rand_quat_spec_tuple
    norm_num
  refine ⟨ha, hb, ?_⟩
  rw [ha, hb]
  intro h
  have := congrArg Quat.x h
  norm_num at this

/-- C9 amended: for draws `x0 ∈ [0,1)` (and any `x1, x2`), `rand_quat`
returns `[sin θ1 √(1−x0), cos θ1 √(1−x0), sin θ2 √x0, cos θ2 √x0]` with
`θ1 = 2π x1`, `θ2 = 2π x2`, and that quaternion has exactly unit norm. -/
theorem rand_quat_components_unit_norm (x0 x1 x2 : ℝ)
    (h0 : 0 ≤ x0) (h1 : x0 < 1) :
    rand_quat x0 x1 x2 =
      ⟨Real.sin (2*π*x1) * Real.sqrt (1 - x0),
       Real.cos (2*π*x1) * Real.sqrt (1 - x0),
       Real.sin (2*π*x2) * Real.sqrt x0,
       Real.cos (2*π*x2) * Real.sqrt x0⟩ ∧
    (rand_quat x0 x1 x2).w^2 + (rand_quat x0 x1 x2).x^2 +
      (rand_quat x0 x1 x2).y^2 + (rand_quat x0 x1 x2).z^2 = 1 := by
  refine ⟨rfl, ?_⟩
  unfold rand_quat
  have hs1 : Real.sqrt (1 - x0) ^ 2 = 1 - x0 := Real.sq_sqrt (by linarith)
  have hs2 : Real.sqrt x0 ^ 2 = x0 := Real.sq_sqrt h0
  have ht1 := Real.sin_sq_add_cos_sq (2*π*x1)
  have ht2 := Real.sin_sq_add_cos_sq (2*π*x2)
  simp only
  linear_combination Real.sqrt (1 - x0) ^ 2 * ht1 + Real.sqrt x0 ^ 2 * ht2 +
    hs1 + hs2

theorem rand_quat_components_unit_norm_witness :
    (0:ℝ) ≤ 0 ∧ (0:ℝ) < 1 ∧
    ((rand_quat 0 0 0).w^2 + (rand_quat 0 0 0).x^2 +
      (rand_quat 0 0 0).y^2 + (rand_quat 0 0 0).z^2 = 1) :=
  ⟨le_refl 0, by norm_num,
    (rand_quat_components_unit_norm 0 0 0 (le_refl 0) (by norm_num)).2⟩

lemma npcopysign_abs_pos_mul {w x : ℝ} (hw : 0 < w) :
    npcopysign |x| (4*(w*x)) = x := by
  unfold npcopysign
  rcases lt_trichotomy x 0 with hx | hx | hx
  · rw [if_pos (by nlinarith), abs_abs, abs_of_neg hx, neg_neg]
  · simp [hx]
  · rw [if_neg (by nlinarith), abs_abs, abs_of_pos hx]

lemma npcopysign_abs_neg_mul {w x : ℝ} (hw : w < 0) :
    npcopysign |x| (4*(w*x)) = -x := by
  unfold npcopysign
  rcases lt_trichotomy x 0 with hx | hx | hx
  · rw [if_neg (by nlinarith), abs_abs, abs_of_neg hx]
  · simp [hx]
  · rw [if_pos (by nlinarith), abs_abs, abs_of_pos hx]

lemma quat_from_rotmx_rotmx_pos (q : Quat)
    (hunit : q.w^2 + q.x^2 + q.y^2 + q.z^2 = 1) (hw : 0 < q.w) :
    quat_from_rotmx (rotmx_from_quat q) = q := by
  obtain ⟨qw, qx, qy, qz⟩ := q
  have hu : qw^2 + qx^2 + qy^2 + qz^2 = 1 := hunit
  have hwp : 0 < qw := hw
  simp only [quat_from_rotmx, rotmx_from_quat, Quat.mk.injEq]
  refine ⟨?_, ?_, ?_, ?_⟩
  · rw [show (1:ℝ) + (1 - 2*(qy^2 + qz^2)) + (1 - 2*(qx^2 + qz^2)) +
        (1 - 2*(qx^2 + qy^2)) = (2*qw)^2 from by linear_combination (-4)*hu]
    rw [max_eq_right (sq_nonneg _), Real.sqrt_sq_eq_abs, abs_mul, abs_two,
        abs_of_pos hwp]
    ring
  · rw [show (1:ℝ) + (1 - 2*(qy^2 + qz^2)) - (1 - 2*(qx^2 + qz^2)) -
        (1 - 2*(qx^2 + qy^2)) = (2*qx)^2 from by ring]
    rw [show 2*(qy*qz + qw*qx) - 2*(qy*qz - qw*qx) = 4*(qw*qx) from by ring]
    rw [max_eq_right (sq_nonneg _), Real.sqrt_sq_eq_abs, abs_mul, abs_two]
    rw [show (2:ℝ)*|qx| / 2 = |qx| from by ring]
    exact npcopysign_abs_pos_mul hwp
  · rw [show (1:ℝ) - (1 - 2*(qy^2 + qz^2)) + (1 - 2*(qx^2 + qz^2)) -
        (1 - 2*(qx^2 + qy^2)) = (2*qy)^2 from by ring]
    rw [show 2*(qx*qz + qw*qy) - 2*(qx*qz - qw*qy) = 4*(qw*qy) from by ring]
    rw [max_eq_right (sq_nonneg _), Real.sqrt_sq_eq_abs, abs_mul, abs_two]
    rw [show (2:ℝ)*|qy| / 2 = |qy| from by ring]
    exact npcopysign_abs_pos_mul hwp
  · rw [show (1:ℝ) - (1 - 2*(qy^2 + qz^2)) - (1 - 2*(qx^2 + qz^2)) +
        (1 - 2*(qx^2 + qy^2)) = (2*qz)^2 from by ring]
    rw [show 2*(qx*qy + qw*qz) - 2*(qx*qy - qw*qz) = 4*(qw*qz) from by ring]
    rw [max_eq_right (sq_nonneg _), Real.sqrt_sq_eq_abs, abs_mul, abs_two]
    rw [show (2:ℝ)*|qz| / 2 = |qz| from by ring]
    exact npcopysign_abs_pos_mul hwp

lemma quat_from_rotmx_rotmx_neg (q : Quat)
    (hunit : q.w^2 + q.x^2 + q.y^2 + q.z^2 = 1) (hw : q.w < 0) :
    quat_from_rotmx (rotmx_from_quat q) = qneg q := by
  obtain ⟨qw, qx, qy, qz⟩ := q
  have hu : qw^2 + qx^2 + qy^2 + qz^2 = 1 := hunit
  have hwn : qw < 0 := hw
  simp only [quat_from_rotmx, rotmx_from_quat, qneg, Quat.mk.injEq]
  refine ⟨?_, ?_, ?_, ?_⟩
  · rw [show (1:ℝ) + (1 - 2*(qy^2 + qz^2)) + (1 - 2*(qx^2 + qz^2)) +
        (1 - 2*(qx^2 + qy^2)) = (2*qw)^2 from by linear_combination (-4)*hu]
    rw [max_eq_right (sq_nonneg _), Real.sqrt_sq_eq_abs, abs_mul, abs_two,
        abs_of_neg hwn]
    ring
  · rw [show (1:ℝ) + (1 - 2*(qy^2 + qz^2)) - (1 - 2*(qx^2 + qz^2)) -
        (1 - 2*(qx^2 + qy^2)) = (2*qx)^2 from by ring]
    rw [show 2*(qy*qz + qw*qx) - 2*(qy*qz - qw*qx) = 4*(qw*qx) from by ring]
    rw [max_eq_right (sq_nonneg _), Real.sqrt_sq_eq_abs, abs_mul, abs_two]
    rw [show (2:ℝ)*|qx| / 2 = |qx| from by ring]
    exact npcopysign_abs_neg_mul hwn
  · rw [show (1:ℝ) - (1 - 2*(qy^2 + qz^2)) + (1 - 2*(qx^2 + qz^2)) -
        (1 - 2*(qx^2 + qy^2)) = (2*qy)^2 from by ring]
    rw [show 2*(qx*qz + qw*qy) - 2*(qx*qz - qw*qy) = 4*(qw*qy) from by ring]
    rw [max_eq_right (sq_nonneg _), Real.sqrt_sq_eq_abs, abs_mul, abs_two]
    rw [show (2:ℝ)*|qy| / 2 = |qy| from by ring]
    exact npcopysign_abs_neg_mul hwn
  · rw [show (1:ℝ) - (1 - 2*(qy^2 + qz^2)) - (1 - 2*(qx^2 + qz^2)) +
        (1 - 2*(qx^2 + qy^2)) = (2*qz)^2 from by ring]
    rw [show 2*(qx*qy + qw*qz) - 2*(qx*qy - qw*qz) = 4*(qw*qz) from by ring]
    rw [max_eq_right (sq_nonneg _), Real.sqrt_sq_eq_abs, abs_mul, abs_two]
    rw [show (2:ℝ)*|qz| / 2 = |qz| from by ring]
    exact npcopysign_abs_neg_mul hwn

/-- C2 counterexample: at the unit quaternion `q = [0, 3/5, -4/5, 0]`
(scalar part zero) the `copysign` sign fixing in `quat_from_rotmx` sees
vanishing antisymmetric differences of `rotmx_from_quat q` and yields
`[0, 3/5, 4/5, 0]`, a different rotation; the uniquified round trip
differs from `uniquify_quat q` by `8/5` in the third component. -/
theorem quat_matrix_roundtrip_fails_at_w_zero :
    ((0:ℝ)^2 + (3/5)^2 + (-(4/5))^2 + (0:ℝ)^2 = 1) ∧
    |(uniquify_quat (quat_from_rotmx (rotmx_from_quat ⟨0, 3/5, -(4/5), 0⟩))).y -
      (uniquify_quat (⟨0, 3/5, -(4/5), 0⟩ : Quat)).y| > 1/100000 := by
  have hM : rotmx_from_quat ⟨0, 3/5, -(4/5), 0⟩ =
      ⟨-(7/25), -(24/25), 0, -(24/25), 7/25, 0, 0, 0, -1⟩ := by
    simp only [rotmx_from_quat, Mat3.mk.injEq]
    norm_num
  have h36 : Real.sqrt 36 = 6 := sqrt_eq_of_sq (by norm_num) (by norm_num)
  have h64 : Real.sqrt 64 = 8 := sqrt_eq_of_sq (by norm_num) (by norm_num)
  have h25 : Real.sqrt 25 = 5 := sqrt_eq_of_sq (by norm_num) (by norm_num)
  have hq : quat_from_rotmx (⟨-(7/25), -(24/25), 0, -(24/25), 7/25, 0, 0, 0,
      -1⟩ : Mat3) = ⟨0, 3/5, 4/5, 0⟩ := by
    simp only [quat_from_rotmx]
    rw [npcopysign_of_not_neg (by norm_num), npcopysign_of_not_neg (by norm_num),
        npcopysign_of_not_neg (by norm_num)]
    simp only [Quat.mk.injEq]
    norm_num
    rw [h36, h64, h25]
    constructor
    · rw [abs_of_nonneg (by norm_num)]
      norm_num
    · rw [abs_of_nonneg (by norm_num)]
      norm_num
  have hu1 : uniquify_quat ⟨0, 3/5, 4/5, 0⟩ = ⟨0, 3/5, 4/5, 0⟩ :=
    uniquify_quat_of_leadNonneg _ (by unfold leadNonneg; norm_num)
  have hu2 : uniquify_quat ⟨0, 3/5, -(4/5), 0⟩ = ⟨0, 3/5, -(4/5), 0⟩ :=
    uniquify_quat_of_leadNonneg _ (by unfold leadNonneg; norm_num)
  refine ⟨by norm_num, ?_⟩
  rw [hM, hq, hu1, hu2]
  rw [show ((⟨0, 3/5, 4/5, 0⟩ : Quat)).y - ((⟨0, 3/5, -(4/5), 0⟩ : Quat)).y =
      8/5 from by norm_num]
  rw [abs_of_pos (by norm_num : (0:ℝ) < 8/5)]
  norm_num

/-- C2 amended: for every unit quaternion with nonzero scalar part `w`,
the uniquified round trip `quat_from_rotmx (rotmx_from_quat q)` agrees
with `uniquify_quat q` to within `1e-5` in every component (in fact
exactly). -/
theorem quat_matrix_roundtrip_of_w_ne_zero (q : Quat)
    (hunit : q.w^2 + q.x^2 + q.y^2 + q.z^2 = 1) (hw : q.w ≠ 0) :
    |(uniquify_quat (quat_from_rotmx (rotmx_from_quat q))).w -
      (uniquify_quat q).w| < 1/100000 ∧
    |(uniquify_quat (quat_from_rotmx (rotmx_from_quat q))).x -
      (uniquify_quat q).x| < 1/100000 ∧
    |(uniquify_quat (quat_from_rotmx (rotmx_from_quat q))).y -
      (uniquify_quat q).y| < 1/100000 ∧
    |(uniquify_quat (quat_from_rotmx (rotmx_from_quat q))).z -
      (uniquify_quat q).z| < 1/100000 := by
  have key : uniquify_quat (quat_from_rotmx (rotmx_from_quat q)) =
      uniquify_quat q := by
    rcases hw.lt_or_lt with h | h
    · rw [quat_from_rotmx_rotmx_neg q hunit h]
      have h1 : uniquify_quat (qneg q) = qneg q :=
        uniquify_quat_of_leadNonneg _ (Or.inl (by simp [qneg]; linarith))
      have h2 : uniquify_quat q = qneg q := by
        unfold uniquify_quat
        rw [if_pos h]
      rw [h1, h2]
    · rw [quat_from_rotmx_rotmx_pos q hunit h]
  rw [key]
  norm_num

theorem quat_matrix_roundtrip_of_w_ne_zero_witness :
    ((⟨3/5, 4/5, 0, 0⟩ : Quat).w^2 + (⟨3/5, 4/5, 0, 0⟩ : Quat).x^2 +
      (⟨3/5, 4/5, 0, 0⟩ : Quat).y^2 + (⟨3/5, 4/5, 0, 0⟩ : Quat).z^2 = 1) ∧
    ((⟨3/5, 4/5, 0, 0⟩ : Quat).w ≠ 0) ∧
    |(uniquify_quat (quat_from_rotmx (rotmx_from_quat ⟨3/5, 4/5, 0, 0⟩))).w -
      (uniquify_quat (⟨3/5, 4/5, 0, 0⟩ : Quat)).w| < 1/100000 :=
  ⟨by norm_num, by norm_num,
    (quat_matrix_roundtrip_of_w_ne_zero ⟨3/5, 4/5, 0, 0⟩ (by norm_num)
      (by norm_num)).1⟩

/-- `R_x t`: rotation matrix around the x-axis (right hand rule). -/
def R_x (t : ℝ) : Mat3 :=
  ⟨1, 0, 0,
   0, Real.cos t, -Real.sin t,
   0, Real.sin t, Real.cos t⟩

/-- `R_y t`: rotation matrix around the y-axis (right hand rule). -/
def R_y (t : ℝ) : Mat3 :=
  ⟨Real.cos t, 0, Real.sin t,
   0, 1, 0,
   -Real.sin t, 0, Real.cos t⟩

/-- `R_z t`: rotation matrix around the z-axis (right hand rule). -/
def R_z (t : ℝ) : Mat3 :=
  ⟨Real.cos t, -Real.sin t, 0,
   Real.sin t, Real.cos t, 0,
   0, 0, 1⟩

/-- One step of the `R_euler` loop over `zip(euler_angles, rotation_axes)`.
The invalid-axis branch calls `log_and_raise_error`, modelled from the spec
(module `src/utils/log.py` missing from the sources) as raising. -/
def R_euler_fold : Mat3 → List (ℝ × Char) → PyResult Mat3
  | R, [] => .returned R
  | R, (ang, ax) :: rest =>
    if ax = 'x' then R_euler_fold (R.mul (R_x ang)) rest
    else if ax = 'y' then R_euler_fold (R.mul (R_y ang)) rest
    else if ax = 'z' then R_euler_fold (R.mul (R_z ang)) rest
    else .raised "invalid axis"

/-- `R_euler euler_angles rotation_axes`: starting from the identity,
right-multiply the single-axis rotation matrix of each `(angle, axis)`
pair in turn. -/
def R_euler (euler_angles : ℝ × ℝ × ℝ) (rotation_axes : String) :
    PyResult Mat3 :=
  R_euler_fold Mat3.identity
    (List.zip [euler_angles.1, euler_angles.2.1, euler_angles.2.2]
      rotation_axes.toList)

/-- The axis index of an axis character (source: `0` for `"x"`, `1` for
`"y"`, `2` for `"z"`; only called on validated characters). -/
def axisIndex (c : Char) : Fin 3 :=
  if c = 'x' then 0 else if c = 'y' then 1 else 2

/-- The validation of `euler_from_quat`: the axis string has exactly three
characters, all in `"xyz"`. -/
def valid_euler_axes (s : String) : Bool :=
  match s.toList with
  | [a1, a2, a3] =>
    (a1 == 'x' || a1 == 'y' || a1 == 'z') &&
    (a2 == 'x' || a2 == 'y' || a2 == 'z') &&
    (a3 == 'x' || a3 == 'y' || a3 == 'z')
  | _ => false

/-- The body of `euler_from_quat` after validation, with the axis indices
`i1, i2, i3` of the three rotation axes: the four-way branch on the axis
convention gives `(e0, e1)`, and `e2` is recovered by comparing the image
of a reference vector under the partial rotation `q1*q2` and under `q`
(`linalg.dotproduct`/`crossproduct` modelled from the spec, module missing
from the sources). -/
def euler_core (q : Quat) (i1 i2 i3 : Fin 3) : ℝ × ℝ × ℝ :=
  let v3r := rotate_quat (basisVec i3) q
  let p : ℝ × ℝ :=
    if (i1 = 0 ∧ i2 = 2 ∧ i3 = 0) ∨ (i1 = 1 ∧ i2 = 0 ∧ i3 = 1) ∨
       (i1 = 2 ∧ i2 = 1 ∧ i3 = 2) then
      (arctan2 (v3r.get (i1 + 2)) (v3r.get (i1 + 1)), Real.arccos (v3r.get i1))
    else if (i1 = 0 ∧ i2 = 2 ∧ i3 = 1) ∨ (i1 = 1 ∧ i2 = 0 ∧ i3 = 2) ∨
       (i1 = 2 ∧ i2 = 1 ∧ i3 = 0) then
      (arctan2 (v3r.get (i1 + 2)) (v3r.get (i1 + 1)), -Real.arcsin (v3r.get i1))
    else if (i1 = 0 ∧ i2 = 1 ∧ i3 = 0) ∨ (i1 = 1 ∧ i2 = 2 ∧ i3 = 1) ∨
       (i1 = 2 ∧ i2 = 0 ∧ i3 = 2) then
      (arctan2 (v3r.get (i1 + 1)) (-(v3r.get (i1 + 2))), Real.arccos (v3r.get i1))
    else
      (arctan2 (-(v3r.get (i1 + 1))) (v3r.get (i1 + 2)), Real.arcsin (v3r.get i1))
  let e0 := p.1
  let e1 := p.2
  let q1 := ⟨Real.cos (e0/2), if i1 = 0 then Real.sin (e0/2) else 0,
             if i1 = 1 then Real.sin (e0/2) else 0,
             if i1 = 2 then Real.sin (e0/2) else 0⟩
  let q2 : Quat := ⟨Real.cos (e1/2), if i2 = 0 then Real.sin (e1/2) else 0,
             if i2 = 1 then Real.sin (e1/2) else 0,
             if i2 = 2 then Real.sin (e1/2) else 0⟩
  let q12 := quat_mult q1 q2
  let v3n := basisVec (i3 + 1)
  let v3n12 := quat_vec_mult q12 v3n
  let v3nG := quat_vec_mult q v3n
  let e2_mag := Real.arccos (dotproduct v3n12 v3nG)
  let vc := crossproduct v3n12 v3nG
  let m := dotproduct vc v3r
  let e2 := npsign m * e2_mag
  (e0, e1, e2)

/-- `euler_from_quat q rotation_axes`: on validation failure the source
prints an error message and falls through to a bare `return`, i.e. it
returns `None` and raises nothing; otherwise it returns the angle triple
of `euler_core`. -/
def euler_from_quat (q : Quat) (rotation_axes : String) :
    PyResult (Option (ℝ × ℝ × ℝ)) :=
  match rotation_axes.toList with
  | [a1, a2, a3] =>
    if (a1 == 'x' || a1 == 'y' || a1 == 'z') &&
       (a2 == 'x' || a2 == 'y' || a2 == 'z') &&
       (a3 == 'x' || a3 == 'y' || a3 == 'z') then
      .returned (some (euler_core q (axisIndex a1) (axisIndex a2) (axisIndex a3)))
    else .returned none
  | _ => .returned none

/-- Projection on the middle Euler angle of a `euler_from_quat` result. -/
def middleAngle : PyResult (Option (ℝ × ℝ × ℝ)) → Option ℝ
  | .returned (some t) => some t.2.1
  | _ => none

/-- C6 counterexample: for the invalid axis string `"ab"` the source's
`euler_from_quat` does not raise any error; it prints a message and
returns `None`. -/
theorem euler_invalid_axes_no_raise_example :
    euler_from_quat ⟨1, 0, 0, 0⟩ "ab" = .returned none ∧
    (euler_from_quat ⟨1, 0, 0, 0⟩ "ab").isRaised = false := by
  constructor <;> rfl

/-- C6 amended: for every axes argument that is not a 3-character string
over `x`, `y`, `z`, `euler_from_quat` returns `None` (after printing an
error message) instead of raising an `InvalidAxisError`. -/
theorem euler_from_quat_invalid_axes_returns_none (q : Quat) (axes : String)
    (h : valid_euler_axes axes = false) :
    euler_from_quat q axes = .returned none := by
  unfold euler_from_quat
  unfold valid_euler_axes at h
  rcases hl : axes.toList with _ | ⟨a, _ | ⟨b, _ | ⟨c, _ | ⟨d, tl⟩⟩⟩⟩ <;>
    simp_all

theorem euler_from_quat_invalid_axes_returns_none_witness :
    valid_euler_axes "ab" = false ∧
    euler_from_quat ⟨1, 0, 0, 0⟩ "ab" = .returned none :=
  ⟨by decide, euler_from_quat_invalid_axes_returns_none ⟨1, 0, 0, 0⟩ "ab"
    (by decide)⟩

/-- C3 amended: for every quaternion, in the forward-cyclic Tait-Bryan
conventions (`i2 = i1+1 mod 3`: `xyz`, `yzx`, `zxy`) the middle angle is
`e1 = +arcsin(v3r[i1])`, and in the backward-cyclic ones (`i2 = i1-1 mod
3`: `xzy`, `yxz`, `zyx`) it is `e1 = -arcsin(v3r[i1])` — the signs are the
opposite of what the claim states. -/
theorem tait_bryan_middle_angle_signs (q : Quat) :
    middleAngle (euler_from_quat q "xyz") =
      some (Real.arcsin ((rotate_quat (basisVec 2) q).get 0)) ∧
    middleAngle (euler_from_quat q "yzx") =
      some (Real.arcsin ((rotate_quat (basisVec 0) q).get 1)) ∧
    middleAngle (euler_from_quat q "zxy") =
      some (Real.arcsin ((rotate_quat (basisVec 1) q).get 2)) ∧
    middleAngle (euler_from_quat q "xzy") =
      some (-Real.arcsin ((rotate_quat (basisVec 1) q).get 0)) ∧
    middleAngle (euler_from_quat q "yxz") =
      some (-Real.arcsin ((rotate_quat (basisVec 2) q).get 1)) ∧
    middleAngle (euler_from_quat q "zyx") =
      some (-Real.arcsin ((rotate_quat (basisVec 0) q).get 2)) :=
  ⟨rfl, rfl, rfl, rfl, rfl, rfl⟩

/-- C7 counterexample: the unsupported adjacency-violating sequence
`"zzx"` is not rejected anywhere on the Euler path: `euler_from_quat`
falls through to the final Tait-Bryan branch and returns an angle triple,
and `R_euler` happily composes `R_z·R_z·R_x`; no error is raised. -/
theorem zzx_not_rejected_counterexample :
    euler_from_quat ⟨1, 0, 0, 0⟩ "zzx" =
      .returned (some (euler_core ⟨1, 0, 0, 0⟩ 2 2 0)) ∧
    (euler_from_quat ⟨1, 0, 0, 0⟩ "zzx").isRaised = false ∧
    R_euler (0, 0, 0) "zzx" =
      .returned (((Mat3.identity.mul (R_z 0)).mul (R_z 0)).mul (R_x 0)) ∧
    (R_euler (0, 0, 0) "zzx").isRaised = false :=
  ⟨rfl, rfl, rfl, rfl⟩

/-- C7 amended: 3-character axis strings over `x,y,z` that violate the
repeated-axis adjacency rules of the twelve conventions (such as `"zzx"`)
are accepted without error by both `R_euler` and `euler_from_quat`, just
like the supported `"zxz"`: both always return a value. -/
theorem adjacency_violating_axes_accepted (q : Quat) (e : ℝ × ℝ × ℝ) :
    (∃ M, R_euler e "zzx" = .returned M) ∧
    (∃ t, euler_from_quat q "zzx" = .returned (some t)) ∧
    (∃ M, R_euler e "zxz" = .returned M) ∧
    (∃ t, euler_from_quat q "zxz" = .returned (some t)) :=
  ⟨⟨_, rfl⟩, ⟨_, rfl⟩, ⟨_, rfl⟩, ⟨_, rfl⟩⟩

/-- C3 counterexample: for the unit quaternion
`q = [√2/2, 0, √2/2, 0]` (rotation by `π/2` about `y`) and the
forward-cyclic Tait-Bryan sequence `"xyz"` (`i1=0`, `i2=1`, `i3=2`), the
code returns the middle angle `arcsin(v3r[0]) = π/2`, whereas the claim's
formula `-arcsin(v3r[0])` gives `-π/2`; the two differ. -/
theorem tait_bryan_forward_sign_counterexample :
    ((Real.sqrt 2/2)^2 + 0^2 + (Real.sqrt 2/2)^2 + 0^2 = (1:ℝ)) ∧
    middleAngle (euler_from_quat ⟨Real.sqrt 2/2, 0, Real.sqrt 2/2, 0⟩ "xyz") =
      some (π/2) ∧
    -Real.arcsin ((rotate_quat (basisVec 2)
      ⟨Real.sqrt 2/2, 0, Real.sqrt 2/2, 0⟩).get 0) = -(π/2) ∧
    (π/2 : ℝ) ≠ -(π/2) := by
  have h2 : Real.sqrt 2 ^ 2 = 2 := Real.sq_sqrt (by norm_num)
  have hv : (rotate_quat (basisVec 2)
      ⟨Real.sqrt 2/2, 0, Real.sqrt 2/2, 0⟩).get 0 = 1 := by
    simp [rotate_quat, quat_vec_mult, quat_mult, quat_conj, basisVec, Vec3.get]
    linear_combination h2 / 2
  have hm : middleAngle (euler_from_quat ⟨Real.sqrt 2/2, 0, Real.sqrt 2/2, 0⟩
      "xyz") = some (Real.arcsin ((rotate_quat (basisVec 2)
      ⟨Real.sqrt 2/2, 0, Real.sqrt 2/2, 0⟩).get 0)) := rfl
  refine ⟨by linear_combination h2 / 2, ?_, ?_, ?_⟩
  · rw [hm, hv, Real.arcsin_one]
  · rw [hv, Real.arcsin_one]
  · intro h
    have hp := Real.pi_pos
    linarith

lemma arctan2_zero_neg_one : arctan2 0 (-1) = π := by
  unfold arctan2
  rw [if_neg (by norm_num), if_pos (by norm_num), if_pos (by norm_num)]
  norm_num

lemma rotate_quat_basis2_q0 :
    rotate_quat (basisVec 2) ⟨0, 0, Real.sqrt 2/2, Real.sqrt 2/2⟩ =
      ⟨0, 1, 0⟩ := by
  have h2 : Real.sqrt 2 ^ 2 = 2 := Real.sq_sqrt (by norm_num)
  simp [rotate_quat, quat_vec_mult, quat_mult, quat_conj, basisVec]
  linear_combination h2 / 2

lemma quat_vec_mult_q0_ex :
    quat_vec_mult ⟨0, 0, Real.sqrt 2/2, Real.sqrt 2/2⟩ ⟨1, 0, 0⟩ =
      ⟨-1, 0, 0⟩ := by
  have h2 : Real.sqrt 2 ^ 2 = 2 := Real.sq_sqrt (by norm_num)
  simp [quat_vec_mult, quat_mult, quat_conj]
  linear_combination -h2 / 2

lemma quat_mult_q1_q2_zxz :
    quat_mult ⟨0, 0, 0, 1⟩ ⟨Real.sqrt 2/2, Real.sqrt 2/2, 0, 0⟩ =
      ⟨0, 0, Real.sqrt 2/2, Real.sqrt 2/2⟩ := by
  simp [quat_mult]

lemma euler_core_q0_zxz :
    euler_core ⟨0, 0, Real.sqrt 2/2, Real.sqrt 2/2⟩ 2 0 2 = (π, π/2, 0) := by
  simp only [euler_core]
  rw [rotate_quat_basis2_q0]
  rw [if_neg (by decide), if_neg (by decide), if_pos (by decide)]
  rw [show ((2:Fin 3) + 1) = 0 from by decide,
      show ((2:Fin 3) + 2) = 1 from by decide]
  simp only [Vec3.get, basisVec]
  rw [arctan2_zero_neg_one, Real.arccos_zero]
  simp only [if_neg (show ¬((2:Fin 3) = 0) from by decide),
    if_neg (show ¬((2:Fin 3) = 1) from by decide),
    if_pos (show (2:Fin 3) = 2 from by decide),
    if_pos (show (0:Fin 3) = 0 from by decide),
    if_neg (show ¬((0:Fin 3) = 1) from by decide),
    if_neg (show ¬((0:Fin 3) = 2) from by decide), if_true]
  rw [Real.cos_pi_div_two, Real.sin_pi_div_two]
  rw [show π/2/2 = π/4 from by ring, Real.cos_pi_div_four, Real.sin_pi_div_four]
  rw [quat_mult_q1_q2_zxz]
  rw [quat_vec_mult_q0_ex]
  rw [show dotproduct ⟨-1, 0, 0⟩ ⟨-1, 0, 0⟩ = 1 from by norm_num [dotproduct]]
  rw [Real.arccos_one, mul_zero]

lemma R_euler_zxz_in :
    R_euler (0, π/2, π) "zxz" = .returned ⟨-1, 0, 0, 0, 0, -1, 0, -1, 0⟩ := by
  have h : R_euler (0, π/2, π) "zxz" =
      .returned (((Mat3.identity.mul (R_z 0)).mul (R_x (π/2))).mul (R_z π)) := rfl
  rw [h]
  congr 1
  simp only [Mat3.identity, R_z, R_x, Mat3.mul, Real.cos_zero, Real.sin_zero,
    Real.cos_pi, Real.sin_pi, Real.cos_pi_div_two, Real.sin_pi_div_two,
    Mat3.mk.injEq]
  norm_num

lemma R_euler_zxz_out :
    R_euler (π, π/2, 0) "zxz" = .returned ⟨-1, 0, 0, 0, 0, 1, 0, 1, 0⟩ := by
  have h : R_euler (π, π/2, 0) "zxz" =
      .returned (((Mat3.identity.mul (R_z π)).mul (R_x (π/2))).mul (R_z 0)) := rfl
  rw [h]
  congr 1
  simp only [Mat3.identity, R_z, R_x, Mat3.mul, Real.cos_zero, Real.sin_zero,
    Real.cos_pi, Real.sin_pi, Real.cos_pi_div_two, Real.sin_pi_div_two,
    Mat3.mk.injEq]
  norm_num

lemma quat_from_rotmx_M0 :
    quat_from_rotmx ⟨-1, 0, 0, 0, 0, -1, 0, -1, 0⟩ =
      ⟨0, 0, Real.sqrt 2/2, Real.sqrt 2/2⟩ := by
  simp only [quat_from_rotmx]
  rw [npcopysign_of_not_neg (by norm_num), npcopysign_of_not_neg (by norm_num),
      npcopysign_of_not_neg (by norm_num)]
  simp only [Quat.mk.injEq]
  norm_num
  positivity

/-- C1: the round trip fails at axes `"zxz"` and the in-range angle triple
`(0, π/2, π)` (`e0 ∈ [0,2π)`, `e1 ∈ [0,π)`, `e2 ∈ [0,2π)`): the matrix
built by `R_euler` maps under `quat_from_rotmx` to `[0,0,√2/2,√2/2]`
(the zero scalar part makes every `copysign` argument vanish, losing the
sign of the `z` component), `euler_from_quat` then returns `(π, π/2, 0)`,
and the rebuilt matrix differs from the original by `2` in entry `(1,2)` —
far beyond the claimed `1e-5`. -/
theorem euler_roundtrip_zxz_failure :
    R_euler (0, π/2, π) "zxz" = .returned ⟨-1, 0, 0, 0, 0, -1, 0, -1, 0⟩ ∧
    quat_from_rotmx ⟨-1, 0, 0, 0, 0, -1, 0, -1, 0⟩ =
      ⟨0, 0, Real.sqrt 2/2, Real.sqrt 2/2⟩ ∧
    euler_from_quat ⟨0, 0, Real.sqrt 2/2, Real.sqrt 2/2⟩ "zxz" =
      .returned (some (π, π/2, 0)) ∧
    R_euler (π, π/2, 0) "zxz" = .returned ⟨-1, 0, 0, 0, 0, 1, 0, 1, 0⟩ ∧
    (⟨-1, 0, 0, 0, 0, 1, 0, 1, 0⟩ : Mat3).m12 -
      (⟨-1, 0, 0, 0, 0, -1, 0, -1, 0⟩ : Mat3).m12 = 2 ∧ ((2:ℝ) > 1/100000) := by
  refine ⟨R_euler_zxz_in, quat_from_rotmx_M0, ?_, R_euler_zxz_out, by norm_num,
    by norm_num⟩
  have h : euler_from_quat ⟨0, 0, Real.sqrt 2/2, Real.sqrt 2/2⟩ "zxz" =
      .returned (some (euler_core ⟨0, 0, Real.sqrt 2/2, Real.sqrt 2/2⟩ 2 0 2)) :=
    rfl
  rw [h, euler_core_q0_zxz]
